import Mathlib

/-!
Verification development for the `python-agent-framework` repository.

The embedding models, from `core/agent.py` and `core/orchestrator.py`:
  * Python JSON values, `json.loads` and `json.dumps` (the fragment the agent
    exercises; fractional/exponent numeric literals are outside the modelled
    fragment, so the modelled decoder fails where CPython would produce a float),
  * the regular-expression search for a ```json fenced block used by
    `Agent._extract_final_answer` and `Agent._parse_tool_call`,
  * the two parser functions themselves, with Python's truthiness tests,
    membership (`in`) semantics including `TypeError` on non-container values,
    and swallowed decode errors,
  * tool dispatch (`Agent._execute_tool`), the blocking reasoning loop
    (`Agent.run`), the streaming loop (`Agent.run_stream`), message
    preparation (`Agent._prepare_messages`), and `ParallelOrchestrator.run`.

Mutable attributes of a Python `Agent` instance (`conversation_history`,
`execution_log`) are threaded as explicit state.  An uncaught Python exception
is modelled as an explicit `crash` outcome.
-/

namespace AgentFramework

/-- Python values produced by `json.loads`: `None`, `bool`, `int`, `str`,
`list`, `dict` (fields in insertion order, keys unique).  Fractional and
exponent numeric literals are outside the modelled fragment. -/
inductive Json where
  | null : Json
  | bool (b : Bool) : Json
  | num (n : Int) : Json
  | str (s : String) : Json
  | arr (elems : List Json) : Json
  | obj (fields : List (String × Json)) : Json
deriving Repr

/-- Characters that `json.loads` skips as whitespace (space, tab, newline, CR). -/
def jsonWs (c : Char) : Bool :=
  c = ' ' || c = '\t' || c = '\n' || c = '\r'

/-- Characters matched by Python's regex `\s`, restricted to its six ASCII
space characters.  Python str patterns additionally match Unicode whitespace
(`\xa0`, `\x1c`–`\x1f`, ...); fences spaced with those are outside the
modelled fragment. -/
def isPySpace (c : Char) : Bool :=
  c = ' ' || c = '\t' || c = '\n' || c = '\r' || c = '\x0b' || c = '\x0c'

/-- Insert a key/value into an ordered field list with CPython `dict` semantics:
an existing key keeps its position and gets the new value, a new key is
appended.  This is how duplicate keys in a JSON object text collapse. -/
def insertField : List (String × Json) → String → Json → List (String × Json)
  | [], k, v => [(k, v)]
  | (k', v') :: rest, k, v =>
    if k' = k then (k, v) :: rest else (k', v') :: insertField rest k v

/-- Look a key up in an ordered field list (CPython `dict.__getitem__`). -/
def lookupField (fields : List (String × Json)) (k : String) : Option Json :=
  (fields.find? (fun kv => kv.1 == k)).map (fun kv => kv.2)

/-- Value of a hexadecimal digit, if the character is one. -/
def hexVal (c : Char) : Option Nat :=
  if '0' ≤ c ∧ c ≤ '9' then some (c.toNat - 48)
  else if 'a' ≤ c ∧ c ≤ 'f' then some (c.toNat - 87)
  else if 'A' ≤ c ∧ c ≤ 'F' then some (c.toNat - 70)
  else none

/-- Body of a JSON string literal (opening quote already consumed).  Returns the
decoded string and the remaining characters.  Raw control characters are
rejected, as in strict-mode `json.loads`. -/
def parseStrBody : List Char → List Char → Option (String × List Char)
  | acc, '"' :: rest => some (String.mk acc.reverse, rest)
  | acc, '\\' :: 'u' :: h1 :: h2 :: h3 :: h4 :: rest =>
    match hexVal h1, hexVal h2, hexVal h3, hexVal h4 with
    | some a, some b, some c, some d =>
      let n := ((a * 16 + b) * 16 + c) * 16 + d
      if h : n.isValidChar then parseStrBody (Char.ofNatAux n h :: acc) rest
      else none
    | _, _, _, _ => none
  | acc, '\\' :: e :: rest =>
    match e with
    | '"' => parseStrBody ('"' :: acc) rest
    | '\\' => parseStrBody ('\\' :: acc) rest
    | '/' => parseStrBody ('/' :: acc) rest
    | 'b' => parseStrBody ('\x08' :: acc) rest
    | 'f' => parseStrBody ('\x0c' :: acc) rest
    | 'n' => parseStrBody ('\n' :: acc) rest
    | 'r' => parseStrBody ('\r' :: acc) rest
    | 't' => parseStrBody ('\t' :: acc) rest
    | _ => none
  | acc, c :: rest => if c.toNat < 32 then none else parseStrBody (c :: acc) rest
  | _, [] => none

/-- Numeric value of a digit run. -/
def digitsToNat (ds : List Char) : Nat :=
  ds.foldl (fun n c => n * 10 + (c.toNat - 48)) 0

/-- Integer literal at the head of the input (JSON grammar: `0` or a nonzero
digit followed by digits; an optional leading `-`).  A following `.`, `e` or
`E` would start a float literal, which is outside the modelled fragment, so
the parse fails there. -/
def parseIntLit (cs : List Char) : Option (Int × List Char) :=
  let core : List Char → Option (Nat × List Char) := fun cs =>
    match cs with
    | '0' :: rest => some (0, rest)
    | c :: _ =>
      if c.isDigit then
        let (ds, rest) := cs.span Char.isDigit
        some (digitsToNat ds, rest)
      else none
    | [] => none
  let checkTail : List Char → Bool := fun rest =>
    match rest with
    | c :: _ => !(c = '.' || c = 'e' || c = 'E')
    | [] => true
  match cs with
  | '-' :: rest =>
    match core rest with
    | some (n, rest') => if checkTail rest' then some (-(n : Int), rest') else none
    | none => none
  | _ =>
    match core cs with
    | some (n, rest') => if checkTail rest' then some ((n : Int), rest') else none
    | none => none

mutual

/-- JSON value at the head of the input (leading whitespace already skipped).
Fuel-indexed recursive descent; `Json.parse` supplies ample fuel. -/
def parseVal : Nat → List Char → Option (Json × List Char)
  | 0, _ => none
  | fuel + 1, cs =>
    match cs with
    | '\x7b' :: rest =>
      let rest := rest.dropWhile jsonWs
      match rest with
      | '\x7d' :: rest2 => some (Json.obj [], rest2)
      | _ =>
        match parseMembers fuel rest [] with
        | some (fields, rest2) => some (Json.obj fields, rest2)
        | none => none
    | '[' :: rest =>
      let rest := rest.dropWhile jsonWs
      match rest with
      | ']' :: rest2 => some (Json.arr [], rest2)
      | _ =>
        match parseElems fuel rest [] with
        | some (elems, rest2) => some (Json.arr elems, rest2)
        | none => none
    | '"' :: rest =>
      match parseStrBody [] rest with
      | some (s, rest2) => some (Json.str s, rest2)
      | none => none
    | 't' :: rest =>
      if List.isPrefixOf "rue".toList rest then some (Json.bool true, rest.drop 3) else none
    | 'f' :: rest =>
      if List.isPrefixOf "alse".toList rest then some (Json.bool false, rest.drop 4) else none
    | 'n' :: rest =>
      if List.isPrefixOf "ull".toList rest then some (Json.null, rest.drop 3) else none
    | _ =>
      match parseIntLit cs with
      | some (n, rest) => some (Json.num n, rest)
      | none => none

/-- Object members starting at a key position (whitespace already skipped). -/
def parseMembers : Nat → List Char → List (String × Json) →
    Option (List (String × Json) × List Char)
  | 0, _, _ => none
  | fuel + 1, cs, acc =>
    match cs with
    | '"' :: rest =>
      match parseStrBody [] rest with
      | some (key, rest) =>
        match rest.dropWhile jsonWs with
        | ':' :: rest =>
          match parseVal fuel (rest.dropWhile jsonWs) with
          | some (v, rest) =>
            let acc := insertField acc key v
            match rest.dropWhile jsonWs with
            | ',' :: rest => parseMembers fuel (rest.dropWhile jsonWs) acc
            | '\x7d' :: rest => some (acc, rest)
            | _ => none
          | none => none
        | _ => none
      | none => none
    | _ => none

/-- Array elements starting at a value position (whitespace already skipped). -/
def parseElems : Nat → List Char → List Json → Option (List Json × List Char)
  | 0, _, _ => none
  | fuel + 1, cs, acc =>
    match parseVal fuel cs with
    | some (v, rest) =>
      match rest.dropWhile jsonWs with
      | ',' :: rest => parseElems fuel (rest.dropWhile jsonWs) (acc ++ [v])
      | ']' :: rest => some (acc ++ [v], rest)
      | _ => none
    | none => none

end

/-- Model of `json.loads`: the whole input must be one JSON value surrounded by
optional whitespace; any failure is a `JSONDecodeError`, modelled as `none`. -/
def Json.parse (s : String) : Option Json :=
  let cs := s.toList
  match parseVal (cs.length + 1) (cs.dropWhile jsonWs) with
  | some (v, rest) => if (rest.dropWhile jsonWs).isEmpty then some v else none
  | none => none

/-! ## Fenced-block search

Both parser functions start with
`re.search(r'```json\s*(\x7b.*?\x7d)\s*```', content, re.DOTALL)`.
Because `\s` matches neither a brace nor a backtick, the engine's backtracking
is deterministic here: at a candidate start the greedy `\s*` runs consume
exactly the maximal whitespace runs, and the lazy `.*?` stops at the first `\x7d`
from which the pattern's tail matches.  `re.search` takes the leftmost start
position at which the pattern matches. -/

/-- The opening literal of the fence pattern. -/
def fencedOpen : List Char := "```json".toList

/-- After the closing brace, the pattern's tail `\s*` followed by three
backticks must match. -/
def closeOk (rest : List Char) : Bool :=
  List.isPrefixOf "```".toList (rest.dropWhile isPySpace)

/-- The lazy `.*?\x7d` part: scan for the first closing brace from which
`closeOk` holds; the accumulator collects the characters the lazy part
consumed.  Returns the group's characters after the opening brace. -/
def lazyClose : List Char → List Char → Option (List Char)
  | [], _ => none
  | c :: rest, acc =>
    if c = '\x7d' ∧ closeOk rest then some (acc.reverse ++ ['\x7d'])
    else lazyClose rest (c :: acc)

/-- Match the whole fence pattern anchored at the head of the input, returning
capture group 1 (the brace-delimited text). -/
def fencedAt (cs : List Char) : Option (List Char) :=
  if List.isPrefixOf fencedOpen cs then
    match (cs.drop 7).dropWhile isPySpace with
    | '\x7b' :: tail =>
      match lazyClose tail [] with
      | some inner => some ('\x7b' :: inner)
      | none => none
    | _ => none
  else none

/-- Leftmost match: try each start position left to right. -/
def searchFencedAux : List Char → Option (List Char)
  | [] => none
  | c :: tail =>
    match fencedAt (c :: tail) with
    | some g => some g
    | none => searchFencedAux tail

/-- Model of the `re.search` call in `_extract_final_answer` and
`_parse_tool_call`: the captured `\x7b...\x7d` group, if the pattern occurs. -/
def searchFenced (s : String) : Option String :=
  (searchFencedAux s.toList).map String.mk

/-! ## Python value semantics: truthiness, `in`, indexing -/

/-- Python truthiness of a decoded JSON value. -/
def pythonTruthy : Json → Bool
  | Json.null => false
  | Json.bool b => b
  | Json.num n => n != 0
  | Json.str s => !s.isEmpty
  | Json.arr l => !l.isEmpty
  | Json.obj l => !l.isEmpty

/-- Substring occurrence test on character lists (Python `needle in haystack`
for strings; the empty needle occurs in everything). -/
def containsSub (hay needle : List Char) : Bool :=
  if List.isPrefixOf needle hay then true
  else
    match hay with
    | [] => false
    | _ :: t => containsSub t needle

/-- Python `key in value` for a decoded JSON value: key lookup on a dict,
substring test on a str, element membership on a list, and a `TypeError`
(modelled as `Except.error`) on the non-container values. -/
def jsonMember (key : String) : Json → Except Unit Bool
  | Json.obj fields => Except.ok (fields.any (fun kv => kv.1 == key))
  | Json.str s => Except.ok (containsSub s.toList key.toList)
  | Json.arr l =>
    Except.ok (l.any (fun e => match e with | Json.str s => s == key | _ => false))
  | _ => Except.error ()

/-- Python `value[key]` with a string key: succeeds only on a dict holding the
key; everything else raises (`TypeError` on non-dicts, `KeyError` on a missing
key), modelled as `Except.error`. -/
def pyIndex (j : Json) (key : String) : Except Unit Json :=
  match j with
  | Json.obj fields =>
    match lookupField fields key with
    | some v => Except.ok v
    | none => Except.error ()
  | _ => Except.error ()

/-! ## `json.dumps` and Python `str`/`repr` rendering -/

/-- One hexadecimal digit, lowercase (as CPython's json encoder emits). -/
def hexDigit (n : Nat) : Char :=
  if n < 10 then Char.ofNat (48 + n) else Char.ofNat (87 + n)

/-- Four-digit lowercase hex rendering for `\uXXXX` escapes. -/
def hex4 (n : Nat) : String :=
  String.mk [hexDigit (n / 4096 % 16), hexDigit (n / 256 % 16),
             hexDigit (n / 16 % 16), hexDigit (n % 16)]

/-- JSON-escape one character.  With `ensureAscii` (the `json.dumps` default)
every character outside `0x20`–`0x7e` is `\u`-escaped, non-BMP ones as a
surrogate pair; without it (`ensure_ascii=False`) only the two metacharacters
and controls below `0x20` are escaped. -/
def escChar (ensureAscii : Bool) (c : Char) : String :=
  if c = '"' then "\\\""
  else if c = '\\' then "\\\\"
  else if c = '\n' then "\\n"
  else if c = '\r' then "\\r"
  else if c = '\t' then "\\t"
  else if c = '\x08' then "\\b"
  else if c = '\x0c' then "\\f"
  else if c.toNat < 32 then "\\u" ++ hex4 c.toNat
  else if ensureAscii ∧ c.toNat > 126 then
    if c.toNat ≤ 65535 then "\\u" ++ hex4 c.toNat
    else
      let n := c.toNat - 65536
      "\\u" ++ hex4 (55296 + n / 1024) ++ "\\u" ++ hex4 (56320 + n % 1024)
  else String.singleton c

/-- A JSON string literal as `json.dumps` writes it. -/
def dumpStr (ensureAscii : Bool) (s : String) : String :=
  "\"" ++ String.join (s.toList.map (escChar ensureAscii)) ++ "\""

/-- Model of `json.dumps` with default separators (`", "` and `": "`). -/
def Json.dumps (ensureAscii : Bool) : Json → String
  | Json.null => "null"
  | Json.bool true => "true"
  | Json.bool false => "false"
  | Json.num n => toString n
  | Json.str s => dumpStr ensureAscii s
  | Json.arr l =>
    "[" ++ String.intercalate ", "
      (l.attach.map (fun x => Json.dumps ensureAscii x.1)) ++ "]"
  | Json.obj l =>
    "\x7b" ++ String.intercalate ", "
      (l.attach.map (fun kv => dumpStr ensureAscii kv.1.1 ++ ": " ++
        Json.dumps ensureAscii kv.1.2)) ++ "\x7d"
decreasing_by
  · simp only [Json.arr.sizeOf_spec]
    have := List.sizeOf_lt_of_mem x.2
    omega
  · simp only [Json.obj.sizeOf_spec]
    have h := List.sizeOf_lt_of_mem kv.2
    have : sizeOf kv.1.2 < sizeOf kv.1 := by
      obtain ⟨a, b⟩ := kv.1
      simp only [Prod.mk.sizeOf_spec]
      omega
    omega

/-- Python `repr` of a string: quote choice (single quotes unless the text has
a single quote and no double quote), with backslash, the chosen quote, and
control characters escaped. -/
def pyReprStr (s : String) : String :=
  let useDouble := s.toList.contains '\'' ∧ !s.toList.contains '"'
  let q : Char := if useDouble then '"' else '\''
  let esc : Char → String := fun c =>
    if c = '\\' then "\\\\"
    else if c = q then "\\" ++ String.singleton q
    else if c = '\n' then "\\n"
    else if c = '\r' then "\\r"
    else if c = '\t' then "\\t"
    else if c.toNat < 32 then "\\x" ++ String.mk [hexDigit (c.toNat / 16), hexDigit (c.toNat % 16)]
    else String.singleton c
  String.singleton q ++ String.join (s.toList.map esc) ++ String.singleton q

/-- Python `repr` of a decoded JSON value (the rendering `str` delegates to
for lists and dicts). -/
def pyRepr : Json → String
  | Json.null => "None"
  | Json.bool true => "True"
  | Json.bool false => "False"
  | Json.num n => toString n
  | Json.str s => pyReprStr s
  | Json.arr l =>
    "[" ++ String.intercalate ", " (l.attach.map (fun x => pyRepr x.1)) ++ "]"
  | Json.obj l =>
    "\x7b" ++ String.intercalate ", "
      (l.attach.map (fun kv => pyReprStr kv.1.1 ++ ": " ++ pyRepr kv.1.2)) ++ "\x7d"
decreasing_by
  · simp only [Json.arr.sizeOf_spec]
    have := List.sizeOf_lt_of_mem x.2
    omega
  · simp only [Json.obj.sizeOf_spec]
    have h := List.sizeOf_lt_of_mem kv.2
    have : sizeOf kv.1.2 < sizeOf kv.1 := by
      obtain ⟨a, b⟩ := kv.1
      simp only [Prod.mk.sizeOf_spec]
      omega
    omega

/-- Python `str` of a decoded JSON value, as an f-string interpolates it. -/
def pyStr : Json → String
  | Json.null => "None"
  | Json.bool true => "True"
  | Json.bool false => "False"
  | Json.num n => toString n
  | Json.str s => s
  | j => pyRepr j

/-! ## `Agent._extract_final_answer` and `Agent._parse_tool_call` -/

/-- Second half of `Agent._extract_final_answer`: decode the entire content;
a present `"final_answer"` key returns its value, and a `JSONDecodeError` or
`TypeError` (from the membership test or the indexing on a non-dict) is
swallowed into the final `return None`. -/
def extractFinalAnswerWhole (content : String) : Option Json :=
  match Json.parse content with
  | none => none
  | some data =>
    match jsonMember "final_answer" data with
    | Except.ok true =>
      match pyIndex data "final_answer" with
      | Except.ok v => some v
      | Except.error _ => none
    | _ => none

/-- Model of `Agent._extract_final_answer`.  First the fenced block: if the
regex matches and the group decodes (a decode failure is swallowed), a present
`"final_answer"` key returns its value; otherwise fall through to
`extractFinalAnswerWhole`.  `none` is the Python `return None`.
(A fenced group always starts with a brace, so its decode result is a dict and
the error branches of `jsonMember`/`pyIndex` are unreachable there.) -/
def extractFinalAnswer (content : String) : Option Json :=
  let fromFenced : Option Json :=
    match searchFenced content with
    | none => none
    | some g =>
      match Json.parse g with
      | none => none
      | some data =>
        match jsonMember "final_answer" data with
        | Except.ok true =>
          match pyIndex data "final_answer" with
          | Except.ok v => some v
          | Except.error _ => none
        | _ => none
  match fromFenced with
  | some v => some v
  | none => extractFinalAnswerWhole content

/-- The three recognition rules shared by both branches of
`Agent._parse_tool_call`, applied to one decoded value.
`Except.error` models a raised `TypeError`;
`Except.ok none` models falling past all three rules without returning;
`Except.ok (some r)` models `return r` (where `r = none` is the `return None`
of the `"final_answer"` rule). -/
def toolCallRules (data : Json) : Except Unit (Option (Option Json)) :=
  match jsonMember "final_answer" data with
  | Except.error e => Except.error e
  | Except.ok true => Except.ok (some none)
  | Except.ok false =>
    let toolRule : Except Unit (Option (Option Json)) :=
      match jsonMember "tool" data with
      | Except.error e => Except.error e
      | Except.ok true => Except.ok (some (some data))
      | Except.ok false => Except.ok none
    match jsonMember "action" data with
    | Except.error e => Except.error e
    | Except.ok false => toolRule
    | Except.ok true =>
      match jsonMember "action_input" data with
      | Except.error e => Except.error e
      | Except.ok false => toolRule
      | Except.ok true =>
        match pyIndex data "action", pyIndex data "action_input" with
        | Except.ok a, Except.ok ai =>
          Except.ok (some (some (Json.obj [("tool", a), ("parameters", ai)])))
        | _, _ => Except.error ()

/-- Second half of `Agent._parse_tool_call`: decode the entire content and
apply the three rules; a `JSONDecodeError` or `TypeError` is swallowed into
the final `return None`, as is falling past all three rules. -/
def parseToolCallWhole (content : String) : Option Json :=
  match Json.parse content with
  | none => none
  | some data =>
    match toolCallRules data with
    | Except.ok (some r) => r
    | _ => none

/-- Model of `Agent._parse_tool_call`.  Fenced branch first (decode failures
swallowed; a fenced group decodes to a dict, so its `TypeError` branch is
unreachable and modelled as falling through); then `parseToolCallWhole` on
the entire content. -/
def parseToolCall (content : String) : Option Json :=
  let fromFenced : Option (Option Json) :=
    match searchFenced content with
    | none => none
    | some g =>
      match Json.parse g with
      | none => none
      | some data =>
        match toolCallRules data with
        | Except.ok (some r) => some r
        | _ => none
  match fromFenced with
  | some r => r
  | none => parseToolCallWhole content

/-! ## Agent data model -/

/-- A registered tool (`core/tool.py` contract): a name, a description, and an
`execute` call receiving the keyword-argument mapping.  A raised exception is
modelled as `Except.error (str e)`. -/
structure Tool where
  name : String
  description : String := ""
  execute : Json → Except String Json

/-- A conversation message.  The content is almost always a string, but
`Agent.run` stores the raw `final_answer` value (any decoded JSON value) into
history, so the field is `Json`; plain text is wrapped in `Json.str`. -/
structure Message where
  role : String
  content : Json
deriving Repr

/-- One `Agent.execution_log` entry.  The wall-clock `timestamp` field is
outside the modelled fragment; the event type and payload are kept. -/
structure LogEntry where
  eventType : String
  data : Json
deriving Repr

/-- Model of `self.tools = \x7btool.name: tool for tool in (tools or [])\x7d`:
a dict comprehension, so a duplicate name silently overwrites the earlier
binding in place. -/
def buildToolMap (ts : List Tool) : List (String × Tool) :=
  ts.foldl (fun m t => insertToolField m t.name t) []
where
  insertToolField : List (String × Tool) → String → Tool → List (String × Tool)
    | [], k, v => [(k, v)]
    | (k', v') :: rest, k, v =>
      if k' = k then (k, v) :: rest else (k', v') :: insertToolField rest k v

/-- Dict lookup in the tool mapping. -/
def lookupTool (m : List (String × Tool)) (k : String) : Option Tool :=
  (m.find? (fun kv => kv.1 == k)).map (fun kv => kv.2)

/-- The `tool_name not in self.tools` test of `_execute_tool`, combined with
the lookup, for a hashable name: a hashable non-string name (`None`, a bool,
an int) is never equal to a string key, so it is never found.  An unhashable
name (list, dict) makes the membership test itself raise `TypeError`; that
path is handled in `execTool` before this function is consulted. -/
def foundTool (toolMap : List (String × Tool)) (toolName : Json) : Option Tool :=
  match toolName with
  | Json.str n => lookupTool toolMap n
  | _ => none

/-- Agent configuration fixed at construction (`Agent.__init__`).  The system
prompt text is generated from the templates in `core/prompts.py`; no claim
depends on its content, so the generated text is carried as a plain string. -/
structure AgentCfg where
  name : String
  tools : List Tool := []
  systemPrompt : String := ""
  memoryEnabled : Bool := true
  maxIterations : Nat := 10

/-- The mutable attributes of an `Agent` instance that the loop touches. -/
structure AgentState where
  conversationHistory : List Message := []
  executionLog : List LogEntry := []

/-- The context prefixing of `_prepare_messages`: a truthy context dict is
serialized (`json.dumps` with its `ensure_ascii=True` default) ahead of the
task text. -/
def taskWithContext (task : String) (context : Option Json) : String :=
  match context with
  | some ctx =>
    if pythonTruthy ctx then
      "Additional context: " ++ Json.dumps true ctx ++ "\n\n" ++ task
    else task
  | none => task

/-- Model of `Agent._prepare_messages`: system prompt, then (with memory
enabled and a non-empty history) the last ten history messages
(`conversation_history[-10:]`), then the new user task. -/
def prepareMessages (cfg : AgentCfg) (st : AgentState) (task : String)
    (context : Option Json) : List Message :=
  let messages := [Message.mk "system" (Json.str cfg.systemPrompt)]
  let messages :=
    if cfg.memoryEnabled ∧ !st.conversationHistory.isEmpty then
      messages ++ st.conversationHistory.drop (st.conversationHistory.length - 10)
    else messages
  messages ++ [Message.mk "user" (Json.str (taskWithContext task context))]

/-- The CPython type name of a decoded JSON value, as exception messages
spell it. -/
def pyTypeName : Json → String
  | Json.null => "NoneType"
  | Json.bool _ => "bool"
  | Json.num _ => "int"
  | Json.str _ => "str"
  | Json.arr _ => "list"
  | Json.obj _ => "dict"

/-- Stand-in for the `str(e)` text of the `TypeError` CPython raises when
`execute(**p)` splats a non-mapping `p`.  The real message also names the
called function (`... argument after ** must be a mapping, not list`), which
is not modelled; only the branch's behaviour (caught, converted to a failure
result) matters and no claim exercises this text. -/
def splatTypeErrorMsg : String := "argument after ** must be a mapping"

/-- The `str(e)` text of the `AttributeError` raised by `tool_call.get(...)`
when the parsed tool call is not a dict, e.g.
`'str' object has no attribute 'get'`. -/
def getAttributeErrorMsg (toolCall : Json) : String :=
  "'" ++ pyTypeName toolCall ++ "' object has no attribute 'get'"

/-- The `str(e)` text of the `TypeError` raised by
`tool_name not in self.tools` when the parsed `"tool"` value is unhashable
(a list or dict), e.g. `unhashable type: 'list'`. -/
def unhashableTypeErrorMsg (toolName : Json) : String :=
  "unhashable type: '" ++ pyTypeName toolName ++ "'"

/-- Model of `Agent._execute_tool`.  On a dict tool call: log `tool_call`;
then the membership test `tool_name not in self.tools` raises an uncaught
`TypeError` when the name is unhashable (a list or dict); otherwise a
missing name synthesizes a failure result, and a found tool runs inside the
try block — a raised exception is converted into
`\x7bsuccess: False, error: str(e)\x7d` — with `tool_result` or `tool_error`
logged.  On a non-dict tool call, `tool_call.get("tool")` raises before
anything is logged.  An uncaught exception is the `Except.error` case,
carrying `str(e)` and the log entries appended before the raise; `Except.ok`
carries the tool result and the log entries appended, in order. -/
def execTool (toolMap : List (String × Tool)) (toolCall : Json) :
    Except (String × List LogEntry) (Json × List LogEntry) :=
  match toolCall with
  | Json.obj fields =>
    let toolName : Json := (lookupField fields "tool").getD Json.null
    let parameters : Json := (lookupField fields "parameters").getD (Json.obj [])
    let callEntry : LogEntry :=
      LogEntry.mk "tool_call" (Json.obj [("tool", toolName), ("parameters", parameters)])
    match toolName with
    | Json.arr _ => Except.error (unhashableTypeErrorMsg toolName, [callEntry])
    | Json.obj _ => Except.error (unhashableTypeErrorMsg toolName, [callEntry])
    | _ =>
      match foundTool toolMap toolName with
      | none =>
        let result : Json := Json.obj [("success", Json.bool false),
          ("error", Json.str ("Tool '" ++ pyStr toolName ++ "' not found"))]
        Except.ok (result, [callEntry, LogEntry.mk "tool_error" result])
      | some tool =>
        match parameters with
        | Json.obj _ =>
          match tool.execute parameters with
          | Except.ok result =>
            Except.ok (result, [callEntry, LogEntry.mk "tool_result" result])
          | Except.error e =>
            let result : Json := Json.obj [("success", Json.bool false),
              ("error", Json.str e)]
            Except.ok (result, [callEntry, LogEntry.mk "tool_error" result])
        | _ =>
          let result : Json := Json.obj [("success", Json.bool false),
            ("error", Json.str splatTypeErrorMsg)]
          Except.ok (result, [callEntry, LogEntry.mk "tool_error" result])
  | _ => Except.error (getAttributeErrorMsg toolCall, [])

/-! ## The blocking reasoning loop (`Agent.run`) -/

/-- One scripted answer of the completion client (`LLMClient.chat` without
streaming): `success=False` with an error text, or `success=True` content. -/
inductive LLMResponse where
  | failure (err : String) : LLMResponse
  | success (content : String) : LLMResponse

/-- How one `Agent.run` call ends: a returned Python value, or an uncaught
exception escaping the method. -/
inductive RunOutcome where
  | ret (v : Json) : RunOutcome
  | crash (e : String) : RunOutcome
deriving Repr

/-- The sentinel `Agent.run` returns when the iteration cap is exhausted. -/
def maxIterSentinel : String := "Maximum iterations reached. Task may be incomplete."

/-- Python `if x:` on an `Optional` value: `None` and falsy values both fail
the test.  Collapses `extractFinalAnswer`/`parseToolCall` results the way the
loop's `if final_answer:` / `if tool_call:` tests do. -/
def truthyOpt (o : Option Json) : Option Json :=
  match o with
  | some v => if pythonTruthy v then some v else none
  | none => none

/-- The `while` body of `Agent.run`, with the remaining iteration budget as
fuel (`fuel = max_iterations - iteration` at loop entry), the zero-based index
of the next completion call, the working message list, and the mutable agent
state.  Returns the outcome, the total number of completion calls made, and
the final state. -/
def runLoop (cfg : AgentCfg) (llm : Nat → LLMResponse) (task : String) :
    Nat → Nat → List Message → AgentState → RunOutcome × Nat × AgentState
  | 0, callIdx, _, st => (RunOutcome.ret (Json.str maxIterSentinel), callIdx, st)
  | fuel + 1, callIdx, messages, st =>
    match llm callIdx with
    | LLMResponse.failure err =>
      let msg := "LLM API error: " ++ err
      (RunOutcome.ret (Json.str msg), callIdx + 1,
        { st with executionLog := st.executionLog ++ [LogEntry.mk "error" (Json.str msg)] })
    | LLMResponse.success content =>
      let st := { st with
        executionLog := st.executionLog ++ [LogEntry.mk "llm_response" (Json.str content)] }
      match truthyOpt (extractFinalAnswer content) with
      | some fa =>
        let st :=
          if cfg.memoryEnabled then
            { st with conversationHistory := st.conversationHistory ++
                [Message.mk "user" (Json.str task), Message.mk "assistant" fa] }
          else st
        (RunOutcome.ret fa, callIdx + 1, st)
      | none =>
        match truthyOpt (parseToolCall content) with
        | some toolCall =>
          match execTool (buildToolMap cfg.tools) toolCall with
          | Except.error (e, entries) =>
            (RunOutcome.crash e, callIdx + 1,
              { st with executionLog := st.executionLog ++ entries })
          | Except.ok (toolResult, entries) =>
            let st := { st with executionLog := st.executionLog ++ entries }
            let observation := "Observation: " ++ Json.dumps false toolResult
            let newMsgs := [Message.mk "assistant" (Json.str content),
                            Message.mk "user" (Json.str observation)]
            let st :=
              if cfg.memoryEnabled then
                { st with conversationHistory := st.conversationHistory ++ newMsgs }
              else st
            runLoop cfg llm task fuel (callIdx + 1) (messages ++ newMsgs) st
        | none =>
          let st :=
            if cfg.memoryEnabled then
              { st with conversationHistory := st.conversationHistory ++
                  [Message.mk "user" (Json.str task),
                   Message.mk "assistant" (Json.str content)] }
            else st
          (RunOutcome.ret (Json.str content), callIdx + 1, st)

/-- Model of `Agent.run`: prepare the messages and run the loop with the full
iteration budget. -/
def Agent.run (cfg : AgentCfg) (st : AgentState) (llm : Nat → LLMResponse)
    (task : String) (context : Option Json) : RunOutcome × Nat × AgentState :=
  runLoop cfg llm task cfg.maxIterations 0 (prepareMessages cfg st task context) st

/-! ## The streaming loop (`Agent.run_stream`) -/

/-- One scripted answer of the completion client called with `stream=True`:
a failure, a non-streaming response (the generator's `else` branch), or a
streamed sequence of chunks whose concatenation is the full content. -/
inductive SResp where
  | failure (err : String) : SResp
  | plain (content : String) : SResp
  | streamed (chunks : List String) : SResp

/-- One event yielded by `Agent.run_stream`.  The `iteration` field is present
only on `"iteration"` events. -/
structure SEvent where
  type : String
  content : String
  iteration : Option Nat := none
deriving Repr

/-- Whether the `run_stream` generator finished normally or an uncaught
exception escaped it after the listed events were yielded. -/
inductive StreamTerm where
  | finished : StreamTerm
  | crashed (e : String) : StreamTerm
deriving Repr

/-- The `while` body of `Agent.run_stream`.  Same fuel discipline as
`runLoop`; `iterNum` is the number of completed iterations (the displayed
iteration counter).  Returns the yielded events in order, how the generator
ended, the number of completion calls made, and the final state. -/
def streamLoop (cfg : AgentCfg) (sllm : Nat → SResp) (task : String) :
    Nat → Nat → Nat → List Message → AgentState →
      List SEvent × StreamTerm × Nat × AgentState
  | 0, callIdx, _, _, st =>
    ([SEvent.mk "max_iterations" "⚠️ 达到最大迭代次数" none], StreamTerm.finished, callIdx, st)
  | fuel + 1, callIdx, iterNum, messages, st =>
    let iterNum := iterNum + 1
    let evIter : SEvent :=
      SEvent.mk "iteration" ("🔄 第 " ++ toString iterNum ++ " 轮推理...") (some iterNum)
    let norm : Except String (List SEvent × String) :=
      match sllm callIdx with
      | SResp.failure err => Except.error err
      | SResp.plain c =>
        Except.ok ([SEvent.mk "thought" ("💭 思考: " ++ c ++ "\n") none], c)
      | SResp.streamed chunks =>
        Except.ok (SEvent.mk "thought_start" "💭 思考中: " none ::
          chunks.map (fun ch => SEvent.mk "thought_chunk" ch none) ++
          [SEvent.mk "thought_end" "\n" none], String.join chunks)
    match norm with
    | Except.error err =>
      ([evIter, SEvent.mk "error" ("LLM API error: " ++ err) none],
        StreamTerm.finished, callIdx + 1, st)
    | Except.ok (thoughtEvs, content) =>
      let pre := evIter :: thoughtEvs
      let st := { st with
        executionLog := st.executionLog ++ [LogEntry.mk "llm_response" (Json.str content)] }
      match truthyOpt (extractFinalAnswer content) with
      | some fa =>
        let st :=
          if cfg.memoryEnabled then
            { st with conversationHistory := st.conversationHistory ++
                [Message.mk "user" (Json.str task), Message.mk "assistant" fa] }
          else st
        (pre ++ [SEvent.mk "final_answer" ("\n✅ 最终答案: " ++ pyStr fa) none],
          StreamTerm.finished, callIdx + 1, st)
      | none =>
        match truthyOpt (parseToolCall content) with
        | some toolCall =>
          match toolCall with
          | Json.obj fields =>
            let toolName : Json := (lookupField fields "tool").getD (Json.str "unknown")
            let params : Json := (lookupField fields "parameters").getD (Json.obj [])
            let evCall : SEvent := SEvent.mk "tool_call"
              ("🛠️  调用工具: " ++ pyStr toolName ++ "\n   参数: " ++
                Json.dumps false params ++ "\n") none
            match execTool (buildToolMap cfg.tools) toolCall with
            | Except.error (e, entries) =>
              (pre ++ [evCall], StreamTerm.crashed e, callIdx + 1,
                { st with executionLog := st.executionLog ++ entries })
            | Except.ok (toolResult, entries) =>
              let st := { st with executionLog := st.executionLog ++ entries }
              let evResult : SEvent := SEvent.mk "tool_result"
                ("📊 工具结果: " ++ Json.dumps false toolResult ++ "\n") none
              let observation := "Observation: " ++ Json.dumps false toolResult
              let newMsgs := [Message.mk "assistant" (Json.str content),
                              Message.mk "user" (Json.str observation)]
              let st :=
                if cfg.memoryEnabled then
                  { st with conversationHistory := st.conversationHistory ++ newMsgs }
                else st
              let rest :=
                streamLoop cfg sllm task fuel (callIdx + 1) iterNum (messages ++ newMsgs) st
              (pre ++ [evCall, evResult] ++ rest.1, rest.2.1, rest.2.2.1, rest.2.2.2)
          | _ =>
            (pre, StreamTerm.crashed (getAttributeErrorMsg toolCall), callIdx + 1, st)
        | none =>
          let st :=
            if cfg.memoryEnabled then
              { st with conversationHistory := st.conversationHistory ++
                  [Message.mk "user" (Json.str task),
                   Message.mk "assistant" (Json.str content)] }
            else st
          (pre ++ [SEvent.mk "response" content none], StreamTerm.finished, callIdx + 1, st)

/-- Model of `Agent.run_stream`. -/
def Agent.runStream (cfg : AgentCfg) (st : AgentState) (sllm : Nat → SResp)
    (task : String) (context : Option Json) :
    List SEvent × StreamTerm × Nat × AgentState :=
  streamLoop cfg sllm task cfg.maxIterations 0 0 (prepareMessages cfg st task context) st

/-! ## `ParallelOrchestrator.run` (`core/orchestrator.py`)

`ParallelOrchestrator.run` submits every agent's `run(task, context)` to a
thread pool and collects `as_completed` futures into a dict keyed by agent
name; `future.result()` re-raises an exception from the agent's run, which is
caught per agent and stored as `f"Error: \x7bstr(e)\x7d"`.  The thread pool
only affects the order in which futures complete, so the model takes the
completion order as an explicit list and the theorem quantifies over every
permutation of the agent list.  The orchestrator's timestamped
`execution_history` is outside the modelled fragment. -/

/-- One agent handed to the orchestrator: its configuration, its mutable
state at submission time, and its scripted completion client. -/
structure PAgent where
  cfg : AgentCfg
  st : AgentState
  llm : Nat → LLMResponse

/-- The outcome of one submitted agent's `run` (what `future.result()`
returns, or the exception it re-raises). -/
def pAgentOutcome (a : PAgent) (task : String) (context : Option Json) : RunOutcome :=
  (Agent.run a.cfg a.st a.llm task context).1

/-- Model of `ParallelOrchestrator.run`, folded over the completion order. -/
def ParallelOrchestrator.run (order : List PAgent) (task : String)
    (context : Option Json) : List (String × Json) :=
  order.foldl
    (fun results a =>
      match pAgentOutcome a task context with
      | RunOutcome.ret v => insertField results a.cfg.name v
      | RunOutcome.crash e => insertField results a.cfg.name (Json.str ("Error: " ++ e)))
    []

/-! ## Statement-support definitions -/

/-- The decoded object the two parser functions act on, following their shared
precedence: a decodable fenced group wins, otherwise the entire content is
decoded.  (Both `_extract_final_answer` and `_parse_tool_call` run exactly
this sequence before inspecting keys.) -/
def examinedJson (content : String) : Option Json :=
  match searchFenced content with
  | some g =>
    match Json.parse g with
    | some d => some d
    | none => Json.parse content
  | none => Json.parse content

/-- "Identical model outputs" across the two execution modes: the streaming
client call fails exactly when the blocking one does (same error text), and
otherwise its full content (collected from chunks if streamed) equals the
blocking response's content. -/
def respMatches : SResp → LLMResponse → Prop
  | SResp.failure e, LLMResponse.failure e' => e = e'
  | SResp.plain c, LLMResponse.success c' => c = c'
  | SResp.streamed chunks, LLMResponse.success c' => String.join chunks = c'
  | _, _ => False

/-- How the terminal event of `run_stream` renders the value that the
blocking `run` returns: a `final_answer` event decorates it, `response` and
`error` events carry it verbatim, and a `max_iterations` event corresponds to
the sentinel (though the event's own banner text differs from it). -/
def terminalRel (ev : SEvent) (v : Json) : Prop :=
  (ev.type = "final_answer" ∧ ev.content = "\n✅ 最终答案: " ++ pyStr v) ∨
  (ev.type = "response" ∧ v = Json.str ev.content) ∨
  (ev.type = "error" ∧ v = Json.str ev.content) ∨
  (ev.type = "max_iterations" ∧ v = Json.str maxIterSentinel)

/-- The dict entry `ParallelOrchestrator.run` stores for one agent: the run's
return value, or the error-tagged string when the run raised. -/
def resultEntry (a : PAgent) (task : String) (context : Option Json) : Json :=
  match pAgentOutcome a task context with
  | RunOutcome.ret v => v
  | RunOutcome.crash e => Json.str ("Error: " ++ e)

/-! ## Concrete fixtures used by witnesses and counterexamples -/

/-- A calculator tool scripted for the spec's "Calculate 2+2" scenario. -/
def calcTool : Tool :=
  { name := "calculator", description := "evaluate arithmetic",
    execute := fun _ => Except.ok (Json.obj [("success", Json.bool true), ("result", Json.num 4)]) }

/-- Agent configuration for the "Calculate 2+2" scenario. -/
def cfg9 : AgentCfg := { name := "calc", tools := [calcTool], systemPrompt := "sp" }

/-- Scripted model outputs for the scenario: an action on turn one, a final
answer on turn two. -/
def llm9 : Nat → LLMResponse := fun k =>
  if k = 0 then
    LLMResponse.success
      "\x7b\"action\":\"calculator\",\"action_input\":\x7b\"expression\":\"2+2\"\x7d\x7d"
  else LLMResponse.success "\x7b\"final_answer\":\"4\"\x7d"

/-- Tool-less agent configuration with the iteration cap at two. -/
def cfgW1 : AgentCfg := { name := "w1", tools := [], systemPrompt := "s", maxIterations := 2 }

/-- A model that answers with a tool action on every turn. -/
def llmW1 : Nat → LLMResponse := fun _ =>
  LLMResponse.success "\x7b\"action\":\"x\",\"action_input\":\x7b\x7d\x7d"

/-- Tool-less agent configuration for the mode-equivalence scenario. -/
def cfgW2 : AgentCfg := { name := "w2", tools := [], systemPrompt := "s" }

/-- A model that immediately returns a final answer (blocking script). -/
def llmW2 : Nat → LLMResponse := fun _ => LLMResponse.success "\x7b\"final_answer\":\"4\"\x7d"

/-- The same output as a non-streaming response of the streaming client. -/
def sllmW2 : Nat → SResp := fun _ => SResp.plain "\x7b\"final_answer\":\"4\"\x7d"

/-- A tool whose call raises. -/
def failTool : Tool :=
  { name := "boom", description := "always raises",
    execute := fun _ => Except.error "division by zero" }

/-- Parallel-orchestrator fixture: agent A answers plainly. -/
def pa : PAgent :=
  ⟨{ name := "A", tools := [], systemPrompt := "s" }, {}, fun _ => LLMResponse.success "hello A"⟩

/-- Parallel-orchestrator fixture: agent B's run raises (its model output is
a JSON string containing `"tool"`, so the legacy rule returns a non-dict and
`tool_call.get` raises an `AttributeError`). -/
def pb : PAgent :=
  ⟨{ name := "B", tools := [], systemPrompt := "s" }, {}, fun _ => LLMResponse.success "\"use tool\""⟩

/-- Parallel-orchestrator fixture: agent C answers plainly. -/
def pc : PAgent :=
  ⟨{ name := "C", tools := [], systemPrompt := "s" }, {}, fun _ => LLMResponse.success "hello C"⟩

/-- Two tools sharing one name, to exercise the dict-comprehension overwrite. -/
def dupToolOne : Tool := { name := "dup", description := "first", execute := fun _ => Except.ok Json.null }

/-- The later of the two duplicate-named tools. -/
def dupToolTwo : Tool :=
  { name := "dup", description := "second", execute := fun _ => Except.ok (Json.bool true) }

/-- A twelve-message conversation history, to exercise the ten-message cap. -/
def histW8 : List Message :=
  (List.range 12).map (fun i => Message.mk "user" (Json.str (toString i)))

/-! ## Helper lemmas -/

/-- Looking a key up after a dict insertion: the inserted key finds the new
value, any other key is unaffected. -/
theorem lookupField_insertField (m : List (String × Json)) (k' k : String) (v : Json) :
    lookupField (insertField m k' v) k = if k' = k then some v else lookupField m k := by
  induction m with
  | nil =>
    simp only [insertField, lookupField, List.find?]
    by_cases h : k' = k
    · have hb : (k' == k) = true := by simpa using h
      simp [hb, h]
    · have hb : (k' == k) = false := by simpa using h
      simp [hb, h]
  | cons hd tl ih =>
    obtain ⟨k'', v''⟩ := hd
    simp only [insertField]
    by_cases h1 : k'' = k'
    · subst h1
      simp only [if_pos rfl]
      by_cases h2 : k'' = k
      · have hb : (k'' == k) = true := by simpa using h2
        simp [lookupField, List.find?, hb, h2]
      · have hb : (k'' == k) = false := by simpa using h2
        simp [lookupField, List.find?, hb, h2]
    · simp only [if_neg h1]
      by_cases h3 : k'' = k
      · have h2 : ¬ (k' = k) := fun hc => h1 ((hc.trans h3.symm).symm)
        have hb : (k'' == k) = true := by simpa using h3
        simp [lookupField, List.find?, hb, h2]
      · have hb : (k'' == k) = false := by simpa using h3
        simp only [lookupField, List.find?, hb]
        simpa [lookupField] using ih

/-- A present key makes the dict's `any` membership test true. -/
theorem any_of_lookupField {fields : List (String × Json)} {k : String} {v : Json}
    (h : lookupField fields k = some v) :
    fields.any (fun kv => kv.1 == k) = true := by
  simp only [lookupField, Option.map_eq_some'] at h
  obtain ⟨kv, hfind, _⟩ := h
  have hmem := List.mem_of_find?_eq_some hfind
  have hp := List.find?_some hfind
  exact List.any_eq_true.mpr ⟨kv, hmem, hp⟩

/-- A container passing a membership test for a non-empty key is truthy:
a dict or list passing it is non-empty, and a string containing a non-empty
substring is non-empty. -/
theorem pythonTruthy_of_member {k : String} (hk : k.toList ≠ []) {j : Json}
    (h : jsonMember k j = Except.ok true) : pythonTruthy j = true := by
  cases j with
  | obj fields =>
    simp only [jsonMember, Except.ok.injEq] at h
    rcases List.any_eq_true.mp h with ⟨kv, hmem, _⟩
    rcases fields with _ | _
    · exact absurd hmem (List.not_mem_nil kv)
    · simp [pythonTruthy]
  | str s =>
    simp only [jsonMember, Except.ok.injEq] at h
    simp only [pythonTruthy, Bool.not_eq_true']
    rcases hb : s.isEmpty with _ | _
    · rfl
    · have hs : s = "" := (String.isEmpty_iff s).mp hb
      subst hs
      rcases hlist : k.toList with _ | ⟨c, cs⟩
      · exact absurd hlist hk
      · rw [show ("" : String).toList = [] from rfl, hlist] at h
        simp [containsSub, List.isPrefixOf] at h
  | arr l =>
    simp only [jsonMember, Except.ok.injEq] at h
    rcases List.any_eq_true.mp h with ⟨e, hmem, _⟩
    rcases l with _ | _
    · exact absurd hmem (List.not_mem_nil e)
    · simp [pythonTruthy]
  | null => simp [jsonMember] at h
  | bool b => simp [jsonMember] at h
  | num n => simp [jsonMember] at h

/-- Every value `_parse_tool_call`'s rules return is truthy: the
action/action-input rule builds a two-field dict, and the legacy rule returns
a value that contains the key `"tool"`. -/
theorem toolCallRules_truthy {data r : Json}
    (h : toolCallRules data = Except.ok (some (some r))) : pythonTruthy r = true := by
  have htool : "tool".toList ≠ [] := by decide
  unfold toolCallRules at h
  cases h1 : jsonMember "final_answer" data with
  | error e1 => rw [h1] at h; exact absurd h (by simp)
  | ok b1 =>
    rw [h1] at h
    cases b1 with
    | true => exact absurd h (by simp)
    | false =>
      cases h2 : jsonMember "tool" data with
      | error e2 =>
        rw [h2] at h
        cases h3 : jsonMember "action" data with
        | error e3 => rw [h3] at h; exact absurd h (by simp)
        | ok b3 =>
          rw [h3] at h
          cases b3 with
          | false => exact absurd h (by simp)
          | true =>
            cases h4 : jsonMember "action_input" data with
            | error e4 => rw [h4] at h; exact absurd h (by simp)
            | ok b4 =>
              rw [h4] at h
              cases b4 with
              | false => exact absurd h (by simp)
              | true =>
                cases h5 : pyIndex data "action" with
                | error e5 => rw [h5] at h; exact absurd h (by simp)
                | ok a =>
                  rw [h5] at h
                  cases h6 : pyIndex data "action_input" with
                  | error e6 => rw [h6] at h; exact absurd h (by simp)
                  | ok ai =>
                    rw [h6] at h
                    simp only [Except.ok.injEq, Option.some.injEq] at h
                    subst h
                    simp [pythonTruthy]
      | ok b2 =>
        rw [h2] at h
        cases h3 : jsonMember "action" data with
        | error e3 => rw [h3] at h; exact absurd h (by simp)
        | ok b3 =>
          rw [h3] at h
          cases b3 with
          | false =>
            cases b2 with
            | false => exact absurd h (by simp)
            | true =>
              simp only [Except.ok.injEq, Option.some.injEq] at h
              subst h
              exact pythonTruthy_of_member htool h2
          | true =>
            cases h4 : jsonMember "action_input" data with
            | error e4 => rw [h4] at h; exact absurd h (by simp)
            | ok b4 =>
              rw [h4] at h
              cases b4 with
              | false =>
                cases b2 with
                | false => exact absurd h (by simp)
                | true =>
                  simp only [Except.ok.injEq, Option.some.injEq] at h
                  subst h
                  exact pythonTruthy_of_member htool h2
              | true =>
                cases h5 : pyIndex data "action" with
                | error e5 => rw [h5] at h; exact absurd h (by simp)
                | ok a =>
                  rw [h5] at h
                  cases h6 : pyIndex data "action_input" with
                  | error e6 => rw [h6] at h; exact absurd h (by simp)
                  | ok ai =>
                    rw [h6] at h
                    simp only [Except.ok.injEq, Option.some.injEq] at h
                    subst h
                    simp [pythonTruthy]

/-- The whole-content half of `_parse_tool_call` only returns truthy values. -/
theorem parseToolCallWhole_truthy {content : String} {t : Json}
    (h : parseToolCallWhole content = some t) : pythonTruthy t = true := by
  unfold parseToolCallWhole at h
  cases hp : Json.parse content with
  | none => rw [hp] at h; exact absurd h (by simp)
  | some data =>
    rw [hp] at h
    simp only at h
    cases hr : toolCallRules data with
    | error e => rw [hr] at h; exact absurd h (by simp)
    | ok o =>
      rw [hr] at h
      cases o with
      | none => exact absurd h (by simp)
      | some r =>
        cases r with
        | none => exact absurd h (by simp)
        | some r =>
          simp only [Option.some.injEq] at h
          subst h
          exact toolCallRules_truthy hr

/-- Everything `_parse_tool_call` returns is truthy, so the loop's
`if tool_call:` test always passes on a parsed tool call. -/
theorem parseToolCall_truthy {content : String} {t : Json}
    (h : parseToolCall content = some t) : pythonTruthy t = true := by
  unfold parseToolCall at h
  cases hs : searchFenced content with
  | none =>
    rw [hs] at h
    exact parseToolCallWhole_truthy h
  | some g =>
    rw [hs] at h
    try simp only at h
    cases hp : Json.parse g with
    | none =>
      rw [hp] at h
      try simp only at h
      exact parseToolCallWhole_truthy h
    | some data =>
      rw [hp] at h
      try simp only at h
      cases hr : toolCallRules data with
      | error e =>
        rw [hr] at h
        try simp only at h
        exact parseToolCallWhole_truthy h
      | ok o =>
        rw [hr] at h
        try simp only at h
        cases o with
        | none =>
          try simp only at h
          exact parseToolCallWhole_truthy h
        | some r =>
          cases r with
          | none => exact absurd h (by simp)
          | some r =>
            simp only [Option.some.injEq] at h
            subst h
            exact toolCallRules_truthy hr

/-- Dispatch on a dict-shaped tool call whose `"tool"` value is a string
never raises: the membership test succeeds on a string, and every branch
after it returns a result.  (With a list/dict name the membership test
itself raises, so the string shape is essential.) -/
theorem execTool_str_ne_error (m : List (String × Tool)) (fields : List (String × Json))
    (name : String) (hname : lookupField fields "tool" = some (Json.str name)) :
    ∀ err, execTool m (Json.obj fields) ≠ Except.error err := by
  intro err h
  unfold execTool at h
  simp only [hname, Option.getD_some] at h
  cases hf : foundTool m (Json.str name) with
  | none => rw [hf] at h; exact absurd h (by simp)
  | some tool =>
    rw [hf] at h
    try simp only at h
    cases hp : (lookupField fields "parameters").getD (Json.obj []) with
    | obj pf =>
      rw [hp] at h
      try simp only at h
      cases he : tool.execute (Json.obj pf) with
      | ok result => rw [he] at h; exact absurd h (by simp)
      | error e' => rw [he] at h; exact absurd h (by simp)
    | null => rw [hp] at h; exact absurd h (by simp)
    | bool b => rw [hp] at h; exact absurd h (by simp)
    | num n => rw [hp] at h; exact absurd h (by simp)
    | str s => rw [hp] at h; exact absurd h (by simp)
    | arr l => rw [hp] at h; exact absurd h (by simp)

/-- `ParallelOrchestrator.run` is the fold that inserts each agent's
`resultEntry` under its name. -/
theorem parallelRun_eq_fold (order : List PAgent) (task : String) (context : Option Json) :
    ParallelOrchestrator.run order task context =
      order.foldl (fun res a => insertField res a.cfg.name (resultEntry a task context)) [] := by
  unfold ParallelOrchestrator.run
  suffices hgen : ∀ init : List (String × Json),
      order.foldl
        (fun results a =>
          match pAgentOutcome a task context with
          | RunOutcome.ret v => insertField results a.cfg.name v
          | RunOutcome.crash e => insertField results a.cfg.name (Json.str ("Error: " ++ e)))
        init =
      order.foldl (fun res a => insertField res a.cfg.name (resultEntry a task context)) init by
    exact hgen []
  induction order with
  | nil => intro init; rfl
  | cons a t ih =>
    intro init
    simp only [List.foldl_cons]
    rw [show (match pAgentOutcome a task context with
        | RunOutcome.ret v => insertField init a.cfg.name v
        | RunOutcome.crash e => insertField init a.cfg.name (Json.str ("Error: " ++ e))) =
        insertField init a.cfg.name (resultEntry a task context) from by
      unfold resultEntry
      cases pAgentOutcome a task context <;> rfl]
    exact ih _

/-- A key naming none of the folded agents is untouched by the fold. -/
theorem lookupField_fold_frame (g : PAgent → Json) :
    ∀ (l : List PAgent) (init : List (String × Json)) (k : String),
      k ∉ l.map (fun x => x.cfg.name) →
      lookupField (l.foldl (fun res x => insertField res x.cfg.name (g x)) init) k =
        lookupField init k
  | [], init, k, _ => rfl
  | x :: t, init, k, h => by
    simp only [List.map_cons, List.mem_cons, not_or] at h
    obtain ⟨hne, hrest⟩ := h
    simp only [List.foldl_cons]
    rw [lookupField_fold_frame g t _ k (by simpa using hrest)]
    rw [lookupField_insertField]
    exact if_neg (fun hc : x.cfg.name = k => hne hc.symm)

/-- With pairwise-distinct agent names, the fold stores exactly each agent's
value under its name. -/
theorem lookupField_fold_insert (g : PAgent → Json) :
    ∀ (l : List PAgent) (init : List (String × Json)) (a : PAgent),
      a ∈ l → (l.map (fun x => x.cfg.name)).Nodup →
      lookupField (l.foldl (fun res x => insertField res x.cfg.name (g x)) init) a.cfg.name =
        some (g a)
  | [], _, a, ha, _ => absurd ha (List.not_mem_nil a)
  | x :: t, init, a, ha, hnodup => by
    simp only [List.map_cons, List.nodup_cons] at hnodup
    obtain ⟨hxnot, hnodupt⟩ := hnodup
    rcases List.mem_cons.mp ha with heq | hmem
    · subst heq
      simp only [List.foldl_cons]
      rw [lookupField_fold_frame g t _ a.cfg.name hxnot]
      rw [lookupField_insertField]
      simp
    · simp only [List.foldl_cons]
      exact lookupField_fold_insert g t _ a hmem hnodupt

/-- The streaming loop always yields at least one event. -/
theorem streamLoop_ne_nil (cfg : AgentCfg) (sllm : Nat → SResp) (task : String) :
    ∀ (fuel callIdx iterNum : Nat) (messages : List Message) (st : AgentState),
      (streamLoop cfg sllm task fuel callIdx iterNum messages st).1 ≠ [] := by
  intro fuel callIdx iterNum messages st
  cases fuel with
  | zero => simp [streamLoop]
  | succ f =>
    simp only [streamLoop]
    cases sllm callIdx <;> simp only <;> repeat' split
    all_goals simp

/-! ## Claim theorems -/

/-- C7: parsing `\x7b"tool":"x","parameters":\x7b"a":1\x7d\x7d` wrapped in a
```json fenced code block and parsing the same text bare yield identical
`ToolInvocation` values — the same tool name and the same arguments mapping. -/
theorem fenced_and_bare_parse_agree :
    parseToolCall "```json\n\x7b\"tool\":\"x\",\"parameters\":\x7b\"a\":1\x7d\x7d\n```" =
      parseToolCall "\x7b\"tool\":\"x\",\"parameters\":\x7b\"a\":1\x7d\x7d" ∧
    parseToolCall "\x7b\"tool\":\"x\",\"parameters\":\x7b\"a\":1\x7d\x7d" =
      some (Json.obj [("tool", Json.str "x"), ("parameters", Json.obj [("a", Json.num 1)])]) :=
  ⟨rfl, rfl⟩

/-- C10: constructing an agent's tool mapping from two tools with the same
name raises no error and keeps only the later tool — the mapping is exactly
the one binding to the second tool, so the first is unreachable by dispatch. -/
theorem duplicate_tool_name_last_wins (t1 t2 : Tool) (h : t1.name = t2.name) :
    buildToolMap [t1, t2] = [(t2.name, t2)] ∧
    lookupTool (buildToolMap [t1, t2]) t1.name = some t2 := by
  have hmap : buildToolMap [t1, t2] = [(t2.name, t2)] := by
    simp [buildToolMap, buildToolMap.insertToolField, h]
  refine ⟨hmap, ?_⟩
  rw [hmap, h]
  simp [lookupTool, List.find?]

/-- Witness for C10 at two concrete tools named `"dup"`. -/
theorem duplicate_tool_name_last_wins_witness :
    buildToolMap [dupToolOne, dupToolTwo] = [(dupToolTwo.name, dupToolTwo)] ∧
    lookupTool (buildToolMap [dupToolOne, dupToolTwo]) dupToolOne.name = some dupToolTwo :=
  duplicate_tool_name_last_wins dupToolOne dupToolTwo rfl

/-- C5: when a registered tool's `execute` raises on an argument mapping,
`_execute_tool` returns (does not raise) the failure result
`\x7bsuccess: false, error: str(e)\x7d`, logging the call and the error —
the exception never propagates out of the dispatch boundary. -/
theorem tool_exception_contained (tools : List Tool) (fields : List (String × Json))
    (name : String) (tool : Tool) (paramFields : List (String × Json)) (e : String)
    (hname : lookupField fields "tool" = some (Json.str name))
    (hfound : lookupTool (buildToolMap tools) name = some tool)
    (hparams : lookupField fields "parameters" = some (Json.obj paramFields))
    (hraise : tool.execute (Json.obj paramFields) = Except.error e) :
    execTool (buildToolMap tools) (Json.obj fields) =
      Except.ok (Json.obj [("success", Json.bool false), ("error", Json.str e)],
        [LogEntry.mk "tool_call"
           (Json.obj [("tool", Json.str name), ("parameters", Json.obj paramFields)]),
         LogEntry.mk "tool_error"
           (Json.obj [("success", Json.bool false), ("error", Json.str e)])]) := by
  unfold execTool
  simp only [hname, hparams, Option.getD_some, foundTool, hfound, hraise]

/-- Witness for C5: dispatching `failTool` on a concrete call. -/
theorem tool_exception_contained_witness :
    execTool (buildToolMap [failTool]) (Json.obj [("tool", Json.str "boom"),
        ("parameters", Json.obj [("x", Json.num 1)])]) =
      Except.ok (Json.obj [("success", Json.bool false),
          ("error", Json.str "division by zero")],
        [LogEntry.mk "tool_call" (Json.obj [("tool", Json.str "boom"),
            ("parameters", Json.obj [("x", Json.num 1)])]),
         LogEntry.mk "tool_error" (Json.obj [("success", Json.bool false),
            ("error", Json.str "division by zero")])]) :=
  tool_exception_contained [failTool] _ "boom" failTool [("x", Json.num 1)]
    "division by zero" rfl rfl rfl rfl

/-- C9 (amended): in the "Calculate 2+2" scenario the agent makes exactly two
model calls, returns `"4"`, and the execution log contains exactly four
entries — `llm_response`, `tool_call`, `tool_result`, `llm_response` and no
further (the claim's count of five does not match the code). -/
theorem calculator_scenario :
    (Agent.run cfg9 {} llm9 "Calculate 2+2" none).1 = RunOutcome.ret (Json.str "4") ∧
    (Agent.run cfg9 {} llm9 "Calculate 2+2" none).2.1 = 2 ∧
    (Agent.run cfg9 {} llm9 "Calculate 2+2" none).2.2.executionLog.map LogEntry.eventType =
      ["llm_response", "tool_call", "tool_result", "llm_response"] ∧
    (Agent.run cfg9 {} llm9 "Calculate 2+2" none).2.2.executionLog.length = 4 :=
  ⟨rfl, rfl, rfl, rfl⟩

/-- Counterexample to C9 as stated: in that very scenario the execution log
does not have five entries. -/
theorem calculator_scenario_log_not_five :
    (Agent.run cfg9 {} llm9 "Calculate 2+2" none).2.2.executionLog.length ≠ 5 := by
  decide

/-- Counterexample to C2 as stated: with the model immediately returning
`\x7b"final_answer":"4"\x7d`, blocking `run` returns `"4"`, but neither the
concatenation of the contents of `run_stream`'s events nor even the terminal
event's content alone equals `"4"` — the streamed rendering is decorated. -/
theorem run_value_not_stream_concat :
    (Agent.run cfgW2 {} llmW2 "t" none).1 = RunOutcome.ret (Json.str "4") ∧
    String.join ((Agent.runStream cfgW2 {} sllmW2 "t" none).1.map SEvent.content) ≠ "4" ∧
    ((Agent.runStream cfgW2 {} sllmW2 "t" none).1.map SEvent.content).getLast? ≠ some "4" :=
  ⟨rfl, by decide, by decide⟩

/-- Counterexample to C6 as stated: the synthesized failure result for an
unknown tool carries the message `Tool 'x' not found`, not the literal text
`tool not found`. -/
theorem unknown_tool_error_text :
    execTool (buildToolMap []) (Json.obj [("tool", Json.str "x")]) =
      Except.ok (Json.obj [("success", Json.bool false),
          ("error", Json.str "Tool 'x' not found")],
        [LogEntry.mk "tool_call" (Json.obj [("tool", Json.str "x"),
            ("parameters", Json.obj [])]),
         LogEntry.mk "tool_error" (Json.obj [("success", Json.bool false),
            ("error", Json.str "Tool 'x' not found")])]) ∧
    ("Tool 'x' not found" : String) ≠ "tool not found" :=
  ⟨rfl, by decide⟩

/-- C8: with memory enabled, the prepared message list is the system prompt,
then at most the ten most recent history messages — all of them when the
history has at most ten, exactly the last ten otherwise — then the new user
task; older messages are silently dropped (the function is total and reports
no error). -/
theorem history_capped (cfg : AgentCfg) (st : AgentState) (task : String)
    (context : Option Json) (hmem : cfg.memoryEnabled = true) :
    prepareMessages cfg st task context =
      Message.mk "system" (Json.str cfg.systemPrompt) ::
        (st.conversationHistory.drop (st.conversationHistory.length - 10) ++
         [Message.mk "user" (Json.str (taskWithContext task context))]) ∧
    st.conversationHistory.drop (st.conversationHistory.length - 10) <:+
      st.conversationHistory ∧
    (st.conversationHistory.length ≤ 10 →
      st.conversationHistory.drop (st.conversationHistory.length - 10) =
        st.conversationHistory) ∧
    (10 < st.conversationHistory.length →
      (st.conversationHistory.drop (st.conversationHistory.length - 10)).length = 10) := by
  refine ⟨?_, List.drop_suffix _ _, ?_, ?_⟩
  · unfold prepareMessages
    rw [hmem]
    rcases hh : st.conversationHistory with _ | ⟨m, ms⟩
    · simp
    · simp
  · intro hle
    have h0 : st.conversationHistory.length - 10 = 0 := by omega
    simp [h0]
  · intro hgt
    rw [List.length_drop]
    omega

/-- Witness for C8 on a twelve-message history: only the last ten survive. -/
theorem history_capped_witness :
    prepareMessages { name := "w8", systemPrompt := "s" } { conversationHistory := histW8 }
        "task" none =
      Message.mk "system" (Json.str "s") ::
        (histW8.drop (histW8.length - 10) ++ [Message.mk "user" (Json.str "task")]) ∧
    histW8.drop (histW8.length - 10) <:+ histW8 ∧
    (histW8.length ≤ 10 → histW8.drop (histW8.length - 10) = histW8) ∧
    (10 < histW8.length → (histW8.drop (histW8.length - 10)).length = 10) :=
  history_capped { name := "w8", systemPrompt := "s" } { conversationHistory := histW8 }
    "task" none rfl

/-- The loop invariant behind C1: with every remaining response a successful
tool invocation — a dict-shaped parse whose `"tool"` value is a string, the
spec's `ToolInvocation` shape — and never a final answer, the loop runs its
entire budget, making one completion call per iteration, and ends in the
sentinel.  (The string shape matters: a list- or dict-valued `"tool"` would
instead raise an uncaught `TypeError` in the membership test.) -/
theorem runLoop_all_tool_calls (cfg : AgentCfg) (llm : Nat → LLMResponse) (task : String) :
    ∀ (fuel callIdx : Nat) (messages : List Message) (st : AgentState),
      (∀ k, k < fuel → ∃ c fields name, llm (callIdx + k) = LLMResponse.success c ∧
        extractFinalAnswer c = none ∧ parseToolCall c = some (Json.obj fields) ∧
        lookupField fields "tool" = some (Json.str name)) →
      (runLoop cfg llm task fuel callIdx messages st).1 =
          RunOutcome.ret (Json.str maxIterSentinel) ∧
      (runLoop cfg llm task fuel callIdx messages st).2.1 = callIdx + fuel := by
  intro fuel
  induction fuel with
  | zero =>
    intro callIdx messages st _
    exact ⟨rfl, by simp [runLoop]⟩
  | succ fuel ih =>
    intro callIdx messages st h
    obtain ⟨c, fields, name, hresp, hfa, htc, hname⟩ := h 0 (Nat.succ_pos fuel)
    rw [Nat.add_zero] at hresp
    have htruthy : pythonTruthy (Json.obj fields) = true := parseToolCall_truthy htc
    have hshift : ∀ k, k < fuel → ∃ c fields name,
        llm (callIdx + 1 + k) = LLMResponse.success c ∧
        extractFinalAnswer c = none ∧ parseToolCall c = some (Json.obj fields) ∧
        lookupField fields "tool" = some (Json.str name) := fun k hk => by
      have hx := h (k + 1) (by omega)
      rwa [show callIdx + (k + 1) = callIdx + 1 + k by omega] at hx
    rcases hexec : execTool (buildToolMap cfg.tools) (Json.obj fields) with err | ⟨result, entries⟩
    · exact absurd hexec (execTool_str_ne_error _ _ _ hname err)
    · rcases hmem : cfg.memoryEnabled with _ | _ <;>
        simp only [runLoop, hresp, hfa, htc, truthyOpt, htruthy, hexec, hmem,
          Bool.false_eq_true, ite_true, ite_false, if_true, if_false] <;>
        refine ⟨(ih _ _ _ hshift).1, ?_⟩ <;>
        · rw [(ih _ _ _ hshift).2]
          omega

/-- C1: an agent whose model emits on every turn a response parsing to a
`ToolInvocation` (a dict-shaped parse with a string tool name, the spec's
`ToolInvocation` shape) and never to a final answer makes exactly
`max_iterations` completion calls, terminates, and returns the fixed
sentinel string rather than raising. -/
theorem iteration_cap (cfg : AgentCfg) (st : AgentState) (llm : Nat → LLMResponse)
    (task : String) (context : Option Json) (hpos : 1 ≤ cfg.maxIterations)
    (h : ∀ k, k < cfg.maxIterations → ∃ c fields name, llm k = LLMResponse.success c ∧
      extractFinalAnswer c = none ∧ parseToolCall c = some (Json.obj fields) ∧
      lookupField fields "tool" = some (Json.str name)) :
    (Agent.run cfg st llm task context).1 = RunOutcome.ret (Json.str maxIterSentinel) ∧
    (Agent.run cfg st llm task context).2.1 = cfg.maxIterations := by
  have hrun := runLoop_all_tool_calls cfg llm task cfg.maxIterations 0
    (prepareMessages cfg st task context) st (by simpa using h)
  simpa [Agent.run] using hrun

/-- Witness for C1: a cap of two, every turn an action naming an unknown
tool — two calls, sentinel returned. -/
theorem iteration_cap_witness :
    (Agent.run cfgW1 {} llmW1 "t" none).1 = RunOutcome.ret (Json.str maxIterSentinel) ∧
    (Agent.run cfgW1 {} llmW1 "t" none).2.1 = 2 := by
  have h := iteration_cap cfgW1 {} llmW1 "t" none (by decide)
    (fun k _ => ⟨"\x7b\"action\":\"x\",\"action_input\":\x7b\x7d\x7d",
      [("tool", Json.str "x"), ("parameters", Json.obj [])], "x", rfl, rfl, rfl, rfl⟩)
  simpa using h

/-- C6 (amended with the code's literal message `Tool '<name>' not found`):
a parsed `ToolInvocation` (dict-shaped, string tool name) naming an
unregistered tool does not terminate the loop — a failure result is
synthesized and logged (`tool_call` then `tool_error`), folded into the
messages as an observation, and the loop continues with the next iteration.
(A list- or dict-valued `"tool"` name is outside the claim's scope: there
the membership test raises an uncaught `TypeError` instead.) -/
theorem unknown_tool_continues (cfg : AgentCfg) (llm : Nat → LLMResponse) (task : String)
    (fuel callIdx : Nat) (messages : List Message) (st : AgentState)
    (content : String) (fields : List (String × Json)) (name : String)
    (hresp : llm callIdx = LLMResponse.success content)
    (hfa : extractFinalAnswer content = none)
    (htc : parseToolCall content = some (Json.obj fields))
    (hname : lookupField fields "tool" = some (Json.str name))
    (hunknown : lookupTool (buildToolMap cfg.tools) name = none) :
    runLoop cfg llm task (fuel + 1) callIdx messages st =
      runLoop cfg llm task fuel (callIdx + 1)
        (messages ++
          [Message.mk "assistant" (Json.str content),
           Message.mk "user" (Json.str ("Observation: " ++
             Json.dumps false (Json.obj [("success", Json.bool false),
               ("error", Json.str ("Tool '" ++ name ++ "' not found"))])))])
        { st with
          executionLog := st.executionLog ++
            [LogEntry.mk "llm_response" (Json.str content),
             LogEntry.mk "tool_call" (Json.obj
               [("tool", Json.str name),
                ("parameters", (lookupField fields "parameters").getD (Json.obj []))]),
             LogEntry.mk "tool_error" (Json.obj [("success", Json.bool false),
               ("error", Json.str ("Tool '" ++ name ++ "' not found"))])],
          conversationHistory :=
            if cfg.memoryEnabled then
              st.conversationHistory ++
                [Message.mk "assistant" (Json.str content),
                 Message.mk "user" (Json.str ("Observation: " ++
                   Json.dumps false (Json.obj [("success", Json.bool false),
                     ("error", Json.str ("Tool '" ++ name ++ "' not found"))])))]
            else st.conversationHistory } := by
  have htruthy : pythonTruthy (Json.obj fields) = true := parseToolCall_truthy htc
  have hexec : execTool (buildToolMap cfg.tools) (Json.obj fields) =
      Except.ok (Json.obj [("success", Json.bool false),
          ("error", Json.str ("Tool '" ++ name ++ "' not found"))],
        [LogEntry.mk "tool_call" (Json.obj
           [("tool", Json.str name),
            ("parameters", (lookupField fields "parameters").getD (Json.obj []))]),
         LogEntry.mk "tool_error" (Json.obj [("success", Json.bool false),
           ("error", Json.str ("Tool '" ++ name ++ "' not found"))])]) := by
    simp only [execTool, hname, Option.getD_some, foundTool, hunknown, pyStr]
  rcases hmem : cfg.memoryEnabled with _ | _ <;>
    simp [runLoop, hresp, hfa, htc, truthyOpt, htruthy, hexec, hmem, List.append_assoc]

/-- Witness for C6 at a concrete unknown-tool invocation (the error text and
observation evaluate to `Tool 'x' not found` inside a serialized failure
result). -/
theorem unknown_tool_continues_witness :
    runLoop cfgW1 llmW1 "t" 1 0 [] {} =
      runLoop cfgW1 llmW1 "t" 0 1
        ([] ++
          [Message.mk "assistant" (Json.str "\x7b\"action\":\"x\",\"action_input\":\x7b\x7d\x7d"),
           Message.mk "user" (Json.str ("Observation: " ++
             Json.dumps false (Json.obj [("success", Json.bool false),
               ("error", Json.str ("Tool '" ++ "x" ++ "' not found"))])))])
        { conversationHistory :=
            if cfgW1.memoryEnabled then
              [] ++
                [Message.mk "assistant"
                   (Json.str "\x7b\"action\":\"x\",\"action_input\":\x7b\x7d\x7d"),
                 Message.mk "user" (Json.str ("Observation: " ++
                   Json.dumps false (Json.obj [("success", Json.bool false),
                     ("error", Json.str ("Tool '" ++ "x" ++ "' not found"))])))]
            else [],
          executionLog := [] ++
            [LogEntry.mk "llm_response"
               (Json.str "\x7b\"action\":\"x\",\"action_input\":\x7b\x7d\x7d"),
             LogEntry.mk "tool_call" (Json.obj
               [("tool", Json.str "x"),
                ("parameters", (lookupField [("tool", Json.str "x"), ("parameters", Json.obj [])]
                   "parameters").getD (Json.obj []))]),
             LogEntry.mk "tool_error" (Json.obj [("success", Json.bool false),
               ("error", Json.str ("Tool '" ++ "x" ++ "' not found"))])] } := by
  have h := unknown_tool_continues cfgW1 llmW1 "t" 0 0 [] {}
    "\x7b\"action\":\"x\",\"action_input\":\x7b\x7d\x7d"
    [("tool", Json.str "x"), ("parameters", Json.obj [])] "x" rfl rfl rfl rfl rfl
  exact h

/-- C4: for any completion order of the submitted agents (the thread pool
only permutes completion), with pairwise-distinct agent names the result
mapping binds every agent's name: to its run's return value, or — when its
run raised — to the error-tagged string `"Error: " ++ str(e)`; every other
agent's entry is unaffected and the batch itself always returns. -/
theorem parallel_isolation (agents order : List PAgent) (task : String)
    (context : Option Json) (hperm : order.Perm agents)
    (hnodup : (agents.map (fun a => a.cfg.name)).Nodup)
    (a : PAgent) (ha : a ∈ agents) :
    lookupField (ParallelOrchestrator.run order task context) a.cfg.name =
      some (resultEntry a task context) := by
  rw [parallelRun_eq_fold]
  refine lookupField_fold_insert _ order [] a (hperm.mem_iff.mpr ha) ?_
  exact ((hperm.map (fun x => x.cfg.name)).nodup_iff).mpr hnodup

/-- Witness for C4: three agents completing in reversed order; B's run raises
and is stored error-tagged, A's result is unaffected. -/
theorem parallel_isolation_witness :
    lookupField (ParallelOrchestrator.run [pc, pb, pa] "t" none) pb.cfg.name =
      some (Json.str "Error: 'str' object has no attribute 'get'") ∧
    lookupField (ParallelOrchestrator.run [pc, pb, pa] "t" none) pa.cfg.name =
      some (Json.str "hello A") := by
  have hperm : ([pc, pb, pa] : List PAgent).Perm [pa, pb, pc] := by
    exact List.reverse_perm [pa, pb, pc]
  have hnodup : (([pa, pb, pc] : List PAgent).map (fun a => a.cfg.name)).Nodup := by
    decide
  constructor
  · have h := parallel_isolation [pa, pb, pc] [pc, pb, pa] "t" none hperm hnodup pb
      (List.mem_cons_of_mem _ (List.mem_cons_self _ _))
    rw [show resultEntry pb "t" none =
      Json.str "Error: 'str' object has no attribute 'get'" from rfl] at h
    exact h
  · have h := parallel_isolation [pa, pb, pc] [pc, pb, pa] "t" none hperm hnodup pa
      (List.mem_cons_self _ _)
    rw [show resultEntry pa "t" none = Json.str "hello A" from rfl] at h
    exact h

/-- C3: whenever the object the parsers examine (fenced group first, whole
content otherwise) carries a `"final_answer"` key alongside an `"action"` /
`"action_input"` pair, extraction yields the final-answer value and the
tool-call parse yields nothing — final answer wins, never a `ToolInvocation`. -/
theorem final_answer_priority (content : String) (fields : List (String × Json)) (v : Json)
    (hdata : examinedJson content = some (Json.obj fields))
    (hfa : lookupField fields "final_answer" = some v)
    (hact : (lookupField fields "action").isSome)
    (hai : (lookupField fields "action_input").isSome) :
    extractFinalAnswer content = some v ∧ parseToolCall content = none := by
  have hmem : jsonMember "final_answer" (Json.obj fields) = Except.ok true := by
    simp [jsonMember, any_of_lookupField hfa]
  have hidx : pyIndex (Json.obj fields) "final_answer" = Except.ok v := by
    simp [pyIndex, hfa]
  have hrules : toolCallRules (Json.obj fields) = Except.ok (some none) := by
    unfold toolCallRules
    rw [hmem]
  constructor
  · cases hs : searchFenced content with
    | none =>
      have hw : Json.parse content = some (Json.obj fields) := by
        unfold examinedJson at hdata
        rw [hs] at hdata
        exact hdata
      simp only [extractFinalAnswer, hs, extractFinalAnswerWhole, hw, hmem, hidx]
    | some g =>
      unfold examinedJson at hdata
      rw [hs] at hdata
      simp only at hdata
      cases hp : Json.parse g with
      | none =>
        rw [hp] at hdata
        simp only at hdata
        simp only [extractFinalAnswer, hs, hp, extractFinalAnswerWhole, hdata, hmem, hidx]
      | some d =>
        rw [hp] at hdata
        simp only [Option.some.injEq] at hdata
        subst hdata
        simp only [extractFinalAnswer, hs, hp, hmem, hidx]
  · cases hs : searchFenced content with
    | none =>
      have hw : Json.parse content = some (Json.obj fields) := by
        unfold examinedJson at hdata
        rw [hs] at hdata
        exact hdata
      simp only [parseToolCall, hs, parseToolCallWhole, hw, hrules]
    | some g =>
      unfold examinedJson at hdata
      rw [hs] at hdata
      simp only at hdata
      cases hp : Json.parse g with
      | none =>
        rw [hp] at hdata
        simp only at hdata
        simp only [parseToolCall, hs, hp, parseToolCallWhole, hdata, hrules]
      | some d =>
        rw [hp] at hdata
        simp only [Option.some.injEq] at hdata
        subst hdata
        simp only [parseToolCall, hs, hp, hrules]

/-- Witness for C3 on a payload carrying all three keys. -/
theorem final_answer_priority_witness :
    extractFinalAnswer
        "\x7b\"final_answer\":\"a\",\"action\":\"t\",\"action_input\":\x7b\x7d\x7d" =
      some (Json.str "a") ∧
    parseToolCall
        "\x7b\"final_answer\":\"a\",\"action\":\"t\",\"action_input\":\x7b\x7d\x7d" =
      none :=
  final_answer_priority
    "\x7b\"final_answer\":\"a\",\"action\":\"t\",\"action_input\":\x7b\x7d\x7d"
    [("final_answer", Json.str "a"), ("action", Json.str "t"), ("action_input", Json.obj [])]
    (Json.str "a") rfl rfl rfl rfl

/-- The shared decision logic of the two loops: under matching model scripts,
from any call index, message list and (independent) states, the blocking loop
crashes exactly when the streaming loop does (same uncaught exception), and a
returned value corresponds to the streaming loop's terminal event as
`terminalRel` describes. -/
theorem loop_equiv (cfg : AgentCfg) (llm : Nat → LLMResponse) (sllm : Nat → SResp)
    (task : String) (hmatch : ∀ k, respMatches (sllm k) (llm k)) :
    ∀ (fuel callIdx iterNum : Nat) (messages : List Message) (stR stS : AgentState),
      (∀ e, (runLoop cfg llm task fuel callIdx messages stR).1 = RunOutcome.crash e ↔
        (streamLoop cfg sllm task fuel callIdx iterNum messages stS).2.1 =
          StreamTerm.crashed e) ∧
      (∀ v, (runLoop cfg llm task fuel callIdx messages stR).1 = RunOutcome.ret v →
        (streamLoop cfg sllm task fuel callIdx iterNum messages stS).2.1 =
          StreamTerm.finished ∧
        ∃ ev, (streamLoop cfg sllm task fuel callIdx iterNum messages stS).1.getLast? =
            some ev ∧ terminalRel ev v) := by
  intro fuel
  induction fuel with
  | zero =>
    intro callIdx iterNum messages stR stS
    constructor
    · intro e
      constructor
      · intro h
        simp [runLoop] at h
      · intro h
        simp [streamLoop] at h
    · intro v hv
      simp only [runLoop, RunOutcome.ret.injEq] at hv
      subst hv
      refine ⟨rfl, ⟨SEvent.mk "max_iterations" "⚠️ 达到最大迭代次数" none, rfl, ?_⟩⟩
      right; right; right
      exact ⟨rfl, rfl⟩
  | succ fuel ih =>
    intro callIdx iterNum messages stR stS
    have hm := hmatch callIdx
    cases hllm : llm callIdx with
    | failure err =>
      cases hsllm : sllm callIdx with
      | plain c =>
        rw [hsllm, hllm] at hm
        exact absurd hm (by simp [respMatches])
      | streamed chunks =>
        rw [hsllm, hllm] at hm
        exact absurd hm (by simp [respMatches])
      | failure err' =>
        rw [hsllm, hllm] at hm
        have herr : err' = err := hm
        subst herr
        constructor
        · intro e
          constructor
          · intro h
            simp only [runLoop, hllm] at h
            exact absurd h (by simp)
          · intro h
            simp only [streamLoop, hsllm] at h
            exact absurd h (by simp)
        · intro v hv
          simp only [runLoop, hllm, RunOutcome.ret.injEq] at hv
          subst hv
          refine ⟨by simp only [streamLoop, hsllm],
            ⟨SEvent.mk "error" ("LLM API error: " ++ err') none, ?_, ?_⟩⟩
          · simp only [streamLoop, hsllm]
            rfl
          · right; right; left
            exact ⟨rfl, rfl⟩
    | success content =>
      have hEx : ∃ te, (match sllm callIdx with
          | SResp.failure err => Except.error err
          | SResp.plain c =>
            Except.ok ([SEvent.mk "thought" ("💭 思考: " ++ c ++ "\n") none], c)
          | SResp.streamed chunks =>
            Except.ok (SEvent.mk "thought_start" "💭 思考中: " none ::
              chunks.map (fun ch => SEvent.mk "thought_chunk" ch none) ++
              [SEvent.mk "thought_end" "\n" none], String.join chunks)) =
          Except.ok (te, content) := by
        cases hsllm : sllm callIdx with
        | failure e' =>
          rw [hsllm, hllm] at hm
          exact absurd hm (by simp [respMatches])
        | plain c =>
          rw [hsllm, hllm] at hm
          have hc : c = content := hm
          subst hc
          exact ⟨[SEvent.mk "thought" ("💭 思考: " ++ c ++ "\n") none], rfl⟩
        | streamed chunks =>
          rw [hsllm, hllm] at hm
          have hc : String.join chunks = content := hm
          refine ⟨SEvent.mk "thought_start" "💭 思考中: " none ::
            chunks.map (fun ch => SEvent.mk "thought_chunk" ch none) ++
            [SEvent.mk "thought_end" "\n" none], ?_⟩
          rw [← hc]
      obtain ⟨thoughtEvs, hnorm⟩ := hEx
      cases hext : truthyOpt (extractFinalAnswer content) with
      | some fa =>
        constructor
        · intro e
          constructor
          · intro h
            simp only [runLoop, hllm, hext] at h
            exact absurd h (by simp)
          · intro h
            simp only [streamLoop, hnorm, hext] at h
            exact absurd h (by simp)
        · intro v hv
          simp only [runLoop, hllm, hext, RunOutcome.ret.injEq] at hv
          subst hv
          refine ⟨by simp only [streamLoop, hnorm, hext],
            ⟨SEvent.mk "final_answer" ("\n✅ 最终答案: " ++ pyStr fa) none, ?_, ?_⟩⟩
          · simp only [streamLoop, hnorm, hext]
            rw [List.getLast?_concat]
          · left
            exact ⟨rfl, rfl⟩
      | none =>
        cases htc : truthyOpt (parseToolCall content) with
        | none =>
          constructor
          · intro e
            constructor
            · intro h
              simp only [runLoop, hllm, hext, htc] at h
              exact absurd h (by simp)
            · intro h
              simp only [streamLoop, hnorm, hext, htc] at h
              exact absurd h (by simp)
          · intro v hv
            simp only [runLoop, hllm, hext, htc, RunOutcome.ret.injEq] at hv
            subst hv
            refine ⟨by simp only [streamLoop, hnorm, hext, htc],
              ⟨SEvent.mk "response" content none, ?_, ?_⟩⟩
            · simp only [streamLoop, hnorm, hext, htc]
              rw [List.getLast?_concat]
            · right; left
              exact ⟨rfl, rfl⟩
        | some tc =>
          cases tc with
          | obj fields =>
            rcases hexec : execTool (buildToolMap cfg.tools) (Json.obj fields) with
              ⟨emsg, entriesE⟩ | ⟨result, entries⟩
            · constructor
              · intro e
                constructor
                · intro h
                  simp only [runLoop, hllm, hext, htc, hexec,
                    RunOutcome.crash.injEq] at h
                  subst h
                  simp only [streamLoop, hnorm, hext, htc, hexec]
                · intro h
                  simp only [streamLoop, hnorm, hext, htc, hexec,
                    StreamTerm.crashed.injEq] at h
                  subst h
                  simp only [runLoop, hllm, hext, htc, hexec]
              · intro v hv
                simp only [runLoop, hllm, hext, htc, hexec] at hv
                exact absurd hv (by simp)
            · constructor
              · intro e
                constructor
                · intro h
                  simp only [runLoop, hllm, hext, htc, hexec] at h
                  simp only [streamLoop, hnorm, hext, htc, hexec]
                  exact ((ih _ _ _ _ _).1 e).mp h
                · intro h
                  simp only [streamLoop, hnorm, hext, htc, hexec] at h
                  simp only [runLoop, hllm, hext, htc, hexec]
                  exact ((ih _ _ _ _ _).1 e).mpr h
              · intro v hv
                simp only [runLoop, hllm, hext, htc, hexec] at hv
                simp only [streamLoop, hnorm, hext, htc, hexec]
                rw [List.getLast?_append_of_ne_nil _
                  (streamLoop_ne_nil cfg sllm task fuel _ _ _ _)]
                exact (ih _ _ _ _ _).2 v hv
          | null =>
            constructor
            · intro e
              constructor
              · intro h
                simp only [runLoop, hllm, hext, htc, execTool, RunOutcome.crash.injEq] at h
                subst h
                simp only [streamLoop, hnorm, hext, htc]
              · intro h
                simp only [streamLoop, hnorm, hext, htc, StreamTerm.crashed.injEq] at h
                subst h
                simp only [runLoop, hllm, hext, htc, execTool]
            · intro v hv
              simp only [runLoop, hllm, hext, htc, execTool] at hv
              exact absurd hv (by simp)
          | bool b =>
            constructor
            · intro e
              constructor
              · intro h
                simp only [runLoop, hllm, hext, htc, execTool, RunOutcome.crash.injEq] at h
                subst h
                simp only [streamLoop, hnorm, hext, htc]
              · intro h
                simp only [streamLoop, hnorm, hext, htc, StreamTerm.crashed.injEq] at h
                subst h
                simp only [runLoop, hllm, hext, htc, execTool]
            · intro v hv
              simp only [runLoop, hllm, hext, htc, execTool] at hv
              exact absurd hv (by simp)
          | num n =>
            constructor
            · intro e
              constructor
              · intro h
                simp only [runLoop, hllm, hext, htc, execTool, RunOutcome.crash.injEq] at h
                subst h
                simp only [streamLoop, hnorm, hext, htc]
              · intro h
                simp only [streamLoop, hnorm, hext, htc, StreamTerm.crashed.injEq] at h
                subst h
                simp only [runLoop, hllm, hext, htc, execTool]
            · intro v hv
              simp only [runLoop, hllm, hext, htc, execTool] at hv
              exact absurd hv (by simp)
          | str s =>
            constructor
            · intro e
              constructor
              · intro h
                simp only [runLoop, hllm, hext, htc, execTool, RunOutcome.crash.injEq] at h
                subst h
                simp only [streamLoop, hnorm, hext, htc]
              · intro h
                simp only [streamLoop, hnorm, hext, htc, StreamTerm.crashed.injEq] at h
                subst h
                simp only [runLoop, hllm, hext, htc, execTool]
            · intro v hv
              simp only [runLoop, hllm, hext, htc, execTool] at hv
              exact absurd hv (by simp)
          | arr l =>
            constructor
            · intro e
              constructor
              · intro h
                simp only [runLoop, hllm, hext, htc, execTool, RunOutcome.crash.injEq] at h
                subst h
                simp only [streamLoop, hnorm, hext, htc]
              · intro h
                simp only [streamLoop, hnorm, hext, htc, StreamTerm.crashed.injEq] at h
                subst h
                simp only [runLoop, hllm, hext, htc, execTool]
            · intro v hv
              simp only [runLoop, hllm, hext, htc, execTool] at hv
              exact absurd hv (by simp)

/-- C2 (amended): for identical model outputs the two modes share one
decision logic and reach the same terminal outcome — `run` raises exactly
when `run_stream` does (same exception), and when `run` returns a value the
stream finishes with a terminal event related to it by `terminalRel`: a
`response` or `error` event carries the returned string verbatim, a
`final_answer` event carries the decorated rendering of the returned value,
and a `max_iterations` event corresponds to the sentinel string.  (As stated
— terminal value equal to the concatenation of the streamed contents — the
claim fails; see the counterexample.) -/
theorem run_stream_terminal_equiv (cfg : AgentCfg) (st : AgentState)
    (llm : Nat → LLMResponse) (sllm : Nat → SResp) (task : String)
    (context : Option Json) (hmatch : ∀ k, respMatches (sllm k) (llm k)) :
    (∀ e, (Agent.run cfg st llm task context).1 = RunOutcome.crash e ↔
      (Agent.runStream cfg st sllm task context).2.1 = StreamTerm.crashed e) ∧
    (∀ v, (Agent.run cfg st llm task context).1 = RunOutcome.ret v →
      (Agent.runStream cfg st sllm task context).2.1 = StreamTerm.finished ∧
      ∃ ev, (Agent.runStream cfg st sllm task context).1.getLast? = some ev ∧
        terminalRel ev v) :=
  loop_equiv cfg llm sllm task hmatch cfg.maxIterations 0 0
    (prepareMessages cfg st task context) st st

/-- Witness for the amended C2 at the concrete final-answer scenario. -/
theorem run_stream_terminal_equiv_witness :
    (Agent.runStream cfgW2 {} sllmW2 "t" none).2.1 = StreamTerm.finished ∧
    ∃ ev, (Agent.runStream cfgW2 {} sllmW2 "t" none).1.getLast? = some ev ∧
      terminalRel ev (Json.str "4") :=
  (run_stream_terminal_equiv cfgW2 {} llmW2 sllmW2 "t" none (fun _ => rfl)).2
    (Json.str "4") rfl

end AgentFramework
